import Mathlib

/-!
Verification development for `src/plug.py` (Tuya smart-plug state recorder).

The Python source is shallowly embedded:
* loosely typed Python values (the raw Tuya payload and the dataclass fields,
  whose annotations are not enforced at runtime) are an inductive `PyValue`;
* timestamps are modelled as epoch seconds (`Int`); the program writes
  second-precision ISO-8601 UTC strings, whose lexicographic order and
  equality agree with the order and equality of the instants they denote;
* the sqlite database is a pair of lists of rows, in rowid (insertion) order;
* fallible operations return `Except CoreError`; injected storage failures
  model `sqlite3` raising `OperationalError` on connect or on a statement.
-/

/-- A dynamically typed Python value, as far as `plug.py` manipulates them:
`None`, `bool`, `int`, `float` (modelled as `ℚ`; only comparison and division
by positive constants occur, which agree with the rational order), `str`. -/
inductive PyValue where
  | none : PyValue
  | b : Bool → PyValue
  | i : Int → PyValue
  | f : ℚ → PyValue
  | s : String → PyValue
deriving DecidableEq, Repr

/-- Python truthiness (`if not x`): `None`, `False`, zero and `""` are falsy. -/
def PyValue.truthy : PyValue → Bool
  | .none => false
  | .b v => v
  | .i v => v != 0
  | .f v => v != 0
  | .s v => v != ""

/-- The numeric view Python's arithmetic and comparisons use: `bool` counts as
`0`/`1`, `int` and `float` as themselves; `None` and `str` are not numbers
(using them in `/` or an order comparison with a number raises `TypeError`). -/
def PyValue.toNum? : PyValue → Option ℚ
  | .b v => some (if v then 1 else 0)
  | .i v => some (v : ℚ)
  | .f v => some v
  | _ => Option.none

def PyValue.isBoolV : PyValue → Bool
  | .b _ => true
  | _ => false

def PyValue.isIntV : PyValue → Bool
  | .i _ => true
  | _ => false

def PyValue.isFloatV : PyValue → Bool
  | .f _ => true
  | _ => false

def PyValue.isStrV : PyValue → Bool
  | .s _ => true
  | _ => false

def PyValue.isNone : PyValue → Bool
  | .none => true
  | _ => false

/-- The errors `plug.py` can raise (exception classes, without messages):
`ValueError` from `from_raw`, `TypeError` from arithmetic on non-numbers,
`sqlite3.IntegrityError` (NOT NULL columns), `sqlite3.OperationalError`
(storage unavailable / statement failure), and a failed remote fetch. -/
inductive CoreError where
  | fetchError : CoreError
  | valueError : CoreError
  | typeError : CoreError
  | integrityError : CoreError
  | storageError : CoreError
deriving DecidableEq, Repr

/-- Python `v / d` for a positive rational constant `d` (`TypeError` unless
`v` is numeric; `bool / int` is fine in Python since `bool <: int`). -/
def pyDiv (v : PyValue) (d : ℚ) : Except CoreError PyValue :=
  match v.toNum? with
  | some q => .ok (.f (q / d))
  | Option.none => .error .typeError

/-- Python `v > q` against a float (`TypeError` unless `v` is numeric). -/
def pyGT (v : PyValue) (q : ℚ) : Except CoreError Bool :=
  match v.toNum? with
  | some x => .ok (decide (q < x))
  | Option.none => .error .typeError

/-- Python `int(v)`: identity on `int`, `False ↦ 0`/`True ↦ 1`, truncation
toward zero on `float`, digit parsing on `str` (`ValueError` on failure),
`TypeError` on `None`. -/
def pyInt : PyValue → Except CoreError Int
  | .b v => .ok (if v then 1 else 0)
  | .i v => .ok v
  | .f q => .ok (if q < 0 then -((-q).floor) else q.floor)
  | .s v =>
    match v.toInt? with
    | some n => .ok n
    | Option.none => .error .valueError
  | .none => .error .typeError

/-- The `TuyaSmartPlug` dataclass. Python dataclasses do not enforce the
field annotations (`bool`, `int`, `float`, `str`), so each field holds
whatever `PyValue` the raw payload supplied. -/
structure TuyaSmartPlug where
  power : PyValue
  countdown_1_s : PyValue
  energy_wh : PyValue
  current_a : PyValue
  voltage_v : PyValue
  power_w : PyValue
  fault_code : PyValue
  relay_status : PyValue
deriving DecidableEq, Repr

/-- One element of the raw payload's `result` list: `{"code": ..., "value": ...}`. -/
structure RawItem where
  code : String
  value : PyValue
deriving DecidableEq, Repr

/-- The raw Tuya API response as `from_raw` reads it. `success` is
`raw.get("success")`: an absent key yields `None`, which is falsy exactly like
a present falsy value, so absence is modelled as `.none`. `result` is
`raw.get("result", [])`: an absent key yields the empty list. -/
structure RawResponse where
  success : PyValue
  result : List RawItem
deriving DecidableEq, Repr

/-- `dps = {item["code"]: item["value"] for item in raw.get("result", [])}`
followed by `dps.get(code, dflt)`: in a dict comprehension a later item with
the same code overrides an earlier one, so the last match wins. -/
def dpsGet (items : List RawItem) (code : String) (dflt : PyValue) : PyValue :=
  match items.reverse.find? (fun it => it.code == code) with
  | some it => it.value
  | Option.none => dflt

/-- `TuyaSmartPlug.from_raw`: raise `ValueError` unless `raw.get("success")`
is truthy; then build the dataclass from `dps` with per-key defaults,
dividing `cur_current` by 1000 and `cur_voltage`/`cur_power` by 10
(each division raises `TypeError` on a non-numeric value). -/
def TuyaSmartPlug.from_raw (raw : RawResponse) : Except CoreError TuyaSmartPlug :=
  if !raw.success.truthy then
    .error .valueError
  else
    match pyDiv (dpsGet raw.result ("cur_current") (.i 0)) 1000,
          pyDiv (dpsGet raw.result ("cur_voltage") (.i 0)) 10,
          pyDiv (dpsGet raw.result ("cur_power") (.i 0)) 10 with
    | .ok ca, .ok vv, .ok pw =>
      .ok { power := dpsGet raw.result ("switch_1") (.b false)
            countdown_1_s := dpsGet raw.result ("countdown_1") (.i 0)
            energy_wh := dpsGet raw.result ("add_ele") (.i 0)
            current_a := ca
            voltage_v := vv
            power_w := pw
            fault_code := dpsGet raw.result ("fault") (.i 0)
            relay_status := dpsGet raw.result ("relay_status") (.s ("unknown")) }
    | .error e, _, _ => .error e
    | _, .error e, _ => .error e
    | _, _, .error e => .error e

/-- `evaluate_plug_state(plug, threshold)`: `plug_state` is `"On"` iff
`plug.power` is truthy; `device_state` is `"Off"` when the plug is off
(`power_w` is then never touched), otherwise `"On"` iff
`plug.power_w > threshold` (which raises `TypeError` on a non-numeric
`power_w`). -/
def evaluate_plug_state (plug : TuyaSmartPlug) (threshold : ℚ) :
    Except CoreError (String × String) :=
  let plug_state := if plug.power.truthy then ("On") else ("Off")
  if !plug.power.truthy then
    .ok (plug_state, ("Off"))
  else
    match pyGT plug.power_w threshold with
    | .ok true => .ok (plug_state, ("On"))
    | .ok false => .ok (plug_state, ("Off"))
    | .error e => .error e

/-- A row of the `status_log` table (an Interval Record). `stop` is the
`end` column (`end` is a Lean keyword); timestamps are epoch seconds. -/
structure StatusRow where
  start : Int
  stop : Int
  plug_state : String
  device_state : String
deriving DecidableEq, Repr

/-- A row of the `event_log` table. `plug_power` is `int(plug.power)`;
the remaining telemetry columns store the dataclass fields as passed. -/
structure EventRow where
  recorded_at : Int
  plug_state : String
  device_state : String
  plug_power : Int
  countdown_s : PyValue
  energy_wh : PyValue
  current_a : PyValue
  voltage_v : PyValue
  power_w : PyValue
  relay_status : PyValue
  fault_code : PyValue
deriving DecidableEq, Repr

/-- The sqlite database `history.db`: both tables, rows in rowid order. -/
structure DB where
  event_log : List EventRow
  status_log : List StatusRow
deriving DecidableEq, Repr

def emptyDB : DB := ⟨[], []⟩

/-- Injected storage failures: each flag makes the corresponding sqlite
call raise `OperationalError` when (and only when) it is executed. -/
structure FailureSpec where
  connect : Bool
  insertEvent : Bool
  selectLast : Bool
  updateStatus : Bool
  insertStatus : Bool
deriving DecidableEq, Repr

def noFail : FailureSpec := ⟨false, false, false, false, false⟩

/-- The write statements `record` can execute against the database. -/
inductive WriteOp where
  | insertEvent : WriteOp
  | updateStatus : WriteOp
  | insertStatus : WriteOp
deriving DecidableEq, Repr

/-- The `logger` calls in `record` and `history`. -/
inductive LogMsg where
  | info_updated : String → String → LogMsg
  | info_logged : String → String → LogMsg
  | error_record : CoreError → LogMsg
  | error_history : CoreError → LogMsg
deriving DecidableEq, Repr

/-- The pure effect of lines 220–234 of `plug.py` on `status_log`: fetch the
row with the highest rowid; if it exists and carries the same state pair,
set its `end` to `now`; otherwise append a fresh `(now, now, pair)` row. -/
def step (pr : String × String) (now : Int) (log : List StatusRow) : List StatusRow :=
  match log.getLast? with
  | some row =>
    if pr.1 = row.plug_state ∧ pr.2 = row.device_state then
      log.dropLast ++ [{ row with stop := now }]
    else
      log ++ [⟨now, now, pr.1, pr.2⟩]
  | Option.none => log ++ [⟨now, now, pr.1, pr.2⟩]

def mkEventRow (plug : TuyaSmartPlug) (plug_state device_state : String)
    (now : Int) (pp : Int) : EventRow :=
  { recorded_at := now
    plug_state := plug_state
    device_state := device_state
    plug_power := pp
    countdown_s := plug.countdown_1_s
    energy_wh := plug.energy_wh
    current_a := plug.current_a
    voltage_v := plug.voltage_v
    power_w := plug.power_w
    relay_status := plug.relay_status
    fault_code := plug.fault_code }

/-- Every `event_log` column is declared NOT NULL: binding a `None`
parameter makes the insert raise `IntegrityError`. -/
def eventValuesNotNull (plug : TuyaSmartPlug) : Bool :=
  !plug.countdown_1_s.isNone && !plug.energy_wh.isNone && !plug.current_a.isNone &&
  !plug.voltage_v.isNone && !plug.power_w.isNone && !plug.relay_status.isNone &&
  !plug.fault_code.isNone

/-- The `status_log` INSERT at lines 231–234, with the accumulated write
trace (the event insert already happened inside the same transaction). -/
def status_insert (fail : FailureSpec) (plug_state device_state : String)
    (now : Int) (db1 : DB) : Except CoreError (DB × List WriteOp × List LogMsg) :=
  if fail.insertStatus then .error .storageError
  else
    .ok ({ db1 with status_log := db1.status_log ++ [⟨now, now, plug_state, device_state⟩] },
         [WriteOp.insertEvent, WriteOp.insertStatus],
         [LogMsg.info_logged plug_state device_state])

/-- The body of the `with sqlite3.connect(DB_PATH)` block of `record`
(lines 187–235): insert the event row, select the last `status_log` row,
then update it in place or insert a new one. The parameter tuple of the
event INSERT is built first, so `int(plug.power)` is evaluated before any
statement runs. On an error nothing is committed (the context manager
rolls the transaction back), which is modelled by the caller keeping the
original `db` whenever the result is `.error`. -/
def record_tx (fail : FailureSpec) (plug : TuyaSmartPlug)
    (plug_state device_state : String) (now : Int) (db : DB) :
    Except CoreError (DB × List WriteOp × List LogMsg) :=
  match pyInt plug.power with
  | .error e => .error e
  | .ok pp =>
    if fail.insertEvent then .error .storageError
    else if !eventValuesNotNull plug then .error .integrityError
    else
      let db1 : DB :=
        { db with event_log := db.event_log ++ [mkEventRow plug plug_state device_state now pp] }
      if fail.selectLast then .error .storageError
      else
        match db1.status_log.getLast? with
        | some row =>
          if plug_state = row.plug_state ∧ device_state = row.device_state then
            if fail.updateStatus then .error .storageError
            else
              .ok ({ db1 with status_log := db1.status_log.dropLast ++ [{ row with stop := now }] },
                   [WriteOp.insertEvent, WriteOp.updateStatus],
                   [LogMsg.info_updated plug_state device_state])
          else status_insert fail plug_state device_state now db1
        | Option.none => status_insert fail plug_state device_state now db1

/-- The `try` body of the `record` command (lines 178–235): fetch the
snapshot, classify it, open the connection and run the transaction. -/
def record_body (fail : FailureSpec) (fetched : Except CoreError TuyaSmartPlug)
    (threshold : ℚ) (now : Int) (db : DB) :
    Except CoreError (DB × List WriteOp × List LogMsg) :=
  match fetched with
  | .error e => .error e
  | .ok plug =>
    match evaluate_plug_state plug threshold with
    | .error e => .error e
    | .ok (plug_state, device_state) =>
      if fail.connect then .error .storageError
      else record_tx fail plug plug_state device_state now db

/-- What a CLI command leaves behind: the (committed) database, printed
lines, logger calls, and the exception escaping to the caller, if any. -/
structure CmdResult where
  db : DB
  output : List String
  logs : List LogMsg
  escaped : Option CoreError
deriving DecidableEq, Repr

/-- The guarded part of the `record` command (lines 176–238, everything
after the `ensure_db()` call): run the `try` body; on success the
transaction commits; on any exception the `except` clause at lines
237–238 calls `logger.error` and falls off the end of the function, so
nothing escapes and the rolled-back database is unchanged. `record_cmd`
adds the `ensure_db()` call at line 175 that precedes this. -/
def record (fail : FailureSpec) (fetched : Except CoreError TuyaSmartPlug)
    (threshold : ℚ) (now : Int) (db : DB) : CmdResult :=
  match record_body fail fetched threshold now db with
  | .ok (db1, _, logs) => ⟨db1, [], logs, Option.none⟩
  | .error e => ⟨db, [], [LogMsg.error_record e], Option.none⟩

/-- Running one `record` invocation per sample, oldest first, with no
injected storage failures (the setting of the interval-set invariant). -/
def processSamples (threshold : ℚ) (samples : List (Int × TuyaSmartPlug)) (db : DB) :
    Except CoreError DB :=
  match samples with
  | [] => .ok db
  | (t, p) :: rest =>
    match record_body noFail (.ok p) threshold t db with
    | .error e => .error e
    | .ok (db1, _, _) => processSamples threshold rest db1

/-- The snapshot matches the dataclass annotations
(`bool`, `int`, `int`, `float`, `float`, `float`, `int`, `str`). -/
def wellTypedPlug (p : TuyaSmartPlug) : Bool :=
  p.power.isBoolV && p.countdown_1_s.isIntV && p.energy_wh.isIntV &&
  p.current_a.isFloatV && p.voltage_v.isFloatV && p.power_w.isFloatV &&
  p.fault_code.isIntV && p.relay_status.isStrV

/-- The state pairs of a sample sequence, when every classification succeeds. -/
def classifyAll (threshold : ℚ) (samples : List (Int × TuyaSmartPlug)) :
    Option (List (String × String)) :=
  samples.mapM (fun s => (evaluate_plug_state s.2 threshold).toOption)

/-- Number of state-pair changes along `pr :: rest`. -/
def transitionsFrom (pr : String × String) : List (String × String) → Nat
  | [] => 0
  | q :: rest => (if pr = q then 0 else 1) + transitionsFrom q rest

/-- Number of adjacent state-pair changes within a sequence. -/
def transitions : List (String × String) → Nat
  | [] => 0
  | pr :: rest => transitionsFrom pr rest

/-- Proleptic-Gregorian civil date from days since the Unix epoch
(the calendar `datetime.date` implements). -/
def civilFromDays (z : Int) : Int × Nat × Nat :=
  let z1 := z + 719468
  let era : Int := z1 / 146097
  let doe : Nat := (z1 - era * 146097).toNat
  let yoe : Nat := (doe - doe / 1460 + doe / 36524 - doe / 146096) / 365
  let y : Int := (yoe : Int) + era * 400
  let doy : Nat := doe - (365 * yoe + yoe / 4 - yoe / 100)
  let mp : Nat := (5 * doy + 2) / 153
  let d : Nat := doy - (153 * mp + 2) / 5 + 1
  let m : Nat := if mp < 10 then mp + 3 else mp - 9
  (if m ≤ 2 then y + 1 else y, m, d)

/-- Zero padding to a minimum width, sign first (`f"{n:02}"` / `%02d`). -/
def zpad (w : Nat) (n : Int) : String :=
  let digits := toString n.natAbs
  let padded := String.mk (List.replicate (w - digits.length - (if n < 0 then 1 else 0)) ('0')) ++ digits
  if n < 0 then ("-") ++ padded else padded

/-- The local calendar date of an instant, under a fixed UTC offset `off`
(seconds): `dt.astimezone(LOCAL_TZ).date()`. -/
def localDateTriple (off t : Int) : Int × Nat × Nat :=
  civilFromDays ((t + off) / 86400)

/-- The local wall-clock hour and minute of an instant. -/
def localHM (off t : Int) : Nat × Nat :=
  let tod := ((t + off) % 86400).toNat
  (tod / 3600, tod % 3600 / 60)

/-- `local.strftime('%Y-%m-%d %H:%M')`. -/
def strftime_ymd_hm (off t : Int) : String :=
  let ymd := localDateTriple off t
  let hm := localHM off t
  zpad 4 ymd.1 ++ ("-") ++ zpad 2 (ymd.2.1 : Int) ++ ("-") ++ zpad 2 (ymd.2.2 : Int) ++
    (" ") ++ zpad 2 (hm.1 : Int) ++ (":") ++ zpad 2 (hm.2 : Int)

/-- `local.strftime('%H:%M')`. -/
def strftime_hm (off t : Int) : String :=
  let hm := localHM off t
  zpad 2 (hm.1 : Int) ++ (":") ++ zpad 2 (hm.2 : Int)

/-- `start_local.date() == end_local.date()` (line 267). -/
def same_day (off : Int) (r : StatusRow) : Bool :=
  decide (localDateTriple off r.start = localDateTriple off r.stop)

/-- The `time_range` string of lines 269–274. -/
def time_range (off : Int) (r : StatusRow) : String :=
  if same_day off r then
    strftime_ymd_hm off r.start ++ (" - ") ++ strftime_hm off r.stop
  else
    strftime_ymd_hm off r.start ++ (" - ") ++ strftime_ymd_hm off r.stop

/-- Lines 276–279: `duration_seconds = int((end - start).total_seconds())`
(exact at second precision), then `divmod(duration_seconds, 3600)` and
`remainder // 60` — Python's floor division and remainder, which for the
positive divisors here coincide with `Int.ediv`/`Int.emod`. -/
def duration_str (r : StatusRow) : String :=
  let duration_seconds : Int := r.stop - r.start
  let hours := duration_seconds / 3600
  let remainder := duration_seconds % 3600
  let minutes := remainder / 60
  zpad 2 hours ++ (":") ++ zpad 2 minutes

/-- `f"{s:<w}"`: left-justify by appending spaces. -/
def ljust (w : Nat) (s : String) : String :=
  s ++ String.mk (List.replicate (w - s.length) (' '))

/-- The printed line for one `status_log` row (line 281). -/
def render_row (off : Int) (r : StatusRow) : String :=
  ljust 40 (time_range off r) ++ (" ") ++ ljust 8 (duration_str r) ++ (" ") ++
    ljust 6 r.plug_state ++ (" ") ++ ljust 8 r.device_state

def insertDesc (r : StatusRow) : List StatusRow → List StatusRow
  | [] => [r]
  | x :: xs => if x.start ≤ r.start then r :: x :: xs else x :: insertDesc r xs

/-- `SELECT ... FROM status_log ORDER BY start DESC` (the stored ISO-8601
strings sort lexicographically in timestamp order). -/
def orderByStartDesc (rows : List StatusRow) : List StatusRow :=
  rows.foldr insertDesc []

def historyHeader : String :=
  ljust 40 ("Time Range") ++ (" ") ++ ljust 8 ("Duration") ++ (" ") ++
    ljust 6 ("Plug") ++ (" ") ++ ljust 8 ("Device")

def historySeparator : String :=
  String.mk (List.replicate 70 ('-'))

/-- The guarded part of the `history` command (lines 245–284, everything
after the `ensure_db()` call): select all interval rows newest first;
print a fallback line when there are none (not an error); otherwise print
the header and one rendered line per row. Any exception in the `try` body
(`fail` models the connect/select raising `OperationalError`) is caught
at lines 283–284, logged via `logger.error`, and not re-raised.
`history_cmd` adds the `ensure_db()` call at line 244 that precedes this. -/
def history (fail : Bool) (off : Int) (db : DB) : CmdResult :=
  if fail then ⟨db, [], [LogMsg.error_history CoreError.storageError], Option.none⟩
  else
    match orderByStartDesc db.status_log with
    | [] => ⟨db, [("No history found.")], [], Option.none⟩
    | rows => ⟨db, historyHeader :: historySeparator :: rows.map (render_row off), [], Option.none⟩

/-- `ensure_db()` (lines 84–108): open a connection and `CREATE TABLE IF
NOT EXISTS` both tables — idempotent, no data change; the connect (or DDL)
can raise `OperationalError` when persistence is unavailable. -/
def ensure_db (fail : Bool) (db : DB) : Except CoreError DB :=
  if fail then .error .storageError else .ok db

/-- The full `record` command (lines 173–238): the `ensure_db()` call at
line 175 runs OUTSIDE the `try`, so its exception propagates uncaught to
the caller, with nothing logged and nothing written; otherwise the
guarded body runs under its `except` clause. -/
def record_cmd (failEnsure : Bool) (fail : FailureSpec)
    (fetched : Except CoreError TuyaSmartPlug) (threshold : ℚ) (now : Int)
    (db : DB) : CmdResult :=
  match ensure_db failEnsure db with
  | .error e => ⟨db, [], [], some e⟩
  | .ok db1 => record fail fetched threshold now db1

/-- The full `history` command (lines 241–284): the `ensure_db()` call at
line 244 likewise runs outside the `try`, so its exception escapes. -/
def history_cmd (failEnsure : Bool) (fail : Bool) (off : Int) (db : DB) : CmdResult :=
  match ensure_db failEnsure db with
  | .error e => ⟨db, [], [], some e⟩
  | .ok db1 => history fail off db1

/-- Whether an `Except` result is a success. -/
def isOkE {α : Type} : Except CoreError α → Bool
  | .ok _ => true
  | .error _ => false

/-- A telemetry code is present in the raw payload's `result` list. -/
def dpsHas (items : List RawItem) (code : String) : Bool :=
  items.any (fun it => it.code == code)

/-- The state pair a `status_log` row carries. -/
def pairOf (r : StatusRow) : String × String :=
  (r.plug_state, r.device_state)

/-- Two interval rows in order: the earlier one ends strictly before the
later one starts (non-overlap for inclusive intervals), and starts are
strictly increasing (ordered by start). -/
def rowOrdered (a b : StatusRow) : Prop :=
  a.stop < b.start ∧ a.start < b.start

/-- Invariant of `status_log` relative to its most recent row `last`:
`last` is the final row, rows are pairwise ordered and non-overlapping,
and every row is a well-formed interval ending no later than `last`. -/
def StoreInv (log : List StatusRow) (last : StatusRow) : Prop :=
  log.getLast? = some last ∧ log.Pairwise rowOrdered ∧
    ∀ r ∈ log, r.start ≤ r.stop ∧ r.stop ≤ last.stop

/-- Fixture: a well-typed snapshot of a powered plug drawing 150 W. -/
def plugOn150 : TuyaSmartPlug :=
  ⟨.b true, .i 0, .i 0, .f (3 / 2), .f 230, .f 150, .i 0, .s ("normal")⟩

/-- Fixture: a well-typed snapshot of a switched-off plug. -/
def plugOff0 : TuyaSmartPlug :=
  ⟨.b false, .i 0, .i 0, .f 0, .f 0, .f 0, .i 0, .s ("normal")⟩

/-- Fixture: an interval row for a device observed on from 0 s to 60 s. -/
def rowOn60 : StatusRow := ⟨0, 60, ("On"), ("On")⟩

/-- Fixture: a store holding the single interval `rowOn60`. -/
def dbOn60 : DB := ⟨[], [rowOn60]⟩

/-- Fixture: the spec's scenario — two on-samples a minute apart, then an
off-sample. -/
def samplesScenario : List (Int × TuyaSmartPlug) :=
  [(0, plugOn150), (60, plugOn150), (120, plugOff0)]

/-- Fixture: the classified pairs of `samplesScenario` at threshold 5 W. -/
def prsScenario : List (String × String) :=
  [(("On"), ("On")), (("On"), ("On")), (("Off"), ("Off"))]

/-- Fixture: a payload whose `success` is truthy but whose `cur_power`
value is a string, so the division by 10 raises `TypeError`. -/
def rawBadPower : RawResponse :=
  ⟨.b true, [⟨("cur_power"), PyValue.s ("x")⟩]⟩

/-- C4: for every snapshot (with its declared `bool` power and `float`
power reading) and threshold, `plug_state` is `On` iff `power` is true, and
`device_state` is `On` iff `power` is true and `power_w` is strictly above
the threshold; in particular equality at the threshold yields `Off`. -/
theorem evaluate_plug_state_C4 (plug : TuyaSmartPlug) (threshold q : ℚ) (b : Bool)
    (hp : plug.power = .b b) (hw : plug.power_w = .f q) :
    evaluate_plug_state plug threshold =
      .ok ((if b then ("On") else ("Off")),
           (if b && decide (threshold < q) then ("On") else ("Off"))) ∧
    (b = true → q = threshold →
      evaluate_plug_state plug threshold = .ok (("On"), ("Off"))) := by
  constructor
  · cases b
    · simp [evaluate_plug_state, hp, hw, pyGT, PyValue.toNum?, PyValue.truthy]
    · by_cases hlt : threshold < q <;>
        simp [evaluate_plug_state, hp, hw, pyGT, PyValue.toNum?, PyValue.truthy, hlt]
  · rintro rfl rfl
    simp [evaluate_plug_state, hp, hw, pyGT, PyValue.toNum?, PyValue.truthy]

theorem evaluate_plug_state_C4_witness :
    evaluate_plug_state plugOn150 150 = .ok (("On"), ("Off")) :=
  (evaluate_plug_state_C4 plugOn150 150 150 true rfl rfl).2 rfl rfl

/-- C9: for a snapshot with non-negative power reading and a negative
threshold, `device_state` equals `plug_state`. -/
theorem evaluate_plug_state_threshold_C9 (plug : TuyaSmartPlug) (threshold q : ℚ) (b : Bool)
    (hp : plug.power = .b b) (hw : plug.power_w = .f q)
    (hq : 0 ≤ q) (ht : threshold < 0) :
    evaluate_plug_state plug threshold =
      .ok ((if b then ("On") else ("Off")), (if b then ("On") else ("Off"))) := by
  cases b
  · simp [evaluate_plug_state, hp, hw, pyGT, PyValue.toNum?, PyValue.truthy]
  · simp [evaluate_plug_state, hp, hw, pyGT, PyValue.toNum?, PyValue.truthy,
      lt_of_lt_of_le ht hq]

theorem evaluate_plug_state_threshold_C9_witness :
    evaluate_plug_state plugOff0 (-1) = .ok (("Off"), ("Off")) :=
  evaluate_plug_state_threshold_C9 plugOff0 (-1) 0 false rfl rfl (le_refl 0) (by norm_num)

/-- C3 counterexample: a `record` invocation whose fetch fails (the
schema setup itself succeeding). The `try` body raises `fetchError`, yet
the command's `except` clause logs it and lets nothing escape to the
caller — the error is swallowed, contradicting the claim that every
failing invocation raises the error to the caller. -/
theorem record_swallow_cex_C3 :
    record_body noFail (.error .fetchError) 5 0 emptyDB = .error .fetchError ∧
    (record_cmd false noFail (.error .fetchError) 5 0 emptyDB).escaped = Option.none ∧
    (record_cmd false noFail (.error .fetchError) 5 0 emptyDB).logs =
      [LogMsg.error_record .fetchError] :=
  ⟨rfl, rfl, rfl⟩

/-- C3 amended: an error raised inside the `try` body of the `record` or
`history` command (fetch failure, malformed snapshot, classification type
error, or persistence failure during the transaction) is caught at the
command boundary, logged via `logger.error`, and not raised, and the
rolled-back store is unchanged; only a persistence failure in the schema
setup (`ensure_db`, which runs before the `try`) escapes uncaught to the
caller — unlogged, with the store unchanged. -/
theorem record_history_swallow_C3 :
    (∀ (fail : FailureSpec) (fetched : Except CoreError TuyaSmartPlug) (threshold : ℚ)
        (now : Int) (db : DB) (e : CoreError),
      record_body fail fetched threshold now db = .error e →
        (record_cmd false fail fetched threshold now db).escaped = Option.none ∧
        (record_cmd false fail fetched threshold now db).logs = [LogMsg.error_record e] ∧
        (record_cmd false fail fetched threshold now db).db = db) ∧
    (∀ (off : Int) (db : DB),
      (history_cmd false true off db).escaped = Option.none ∧
      (history_cmd false true off db).logs = [LogMsg.error_history CoreError.storageError] ∧
      (history_cmd false true off db).db = db) ∧
    (∀ (fail : FailureSpec) (fetched : Except CoreError TuyaSmartPlug) (threshold : ℚ)
        (now : Int) (db : DB),
      (record_cmd true fail fetched threshold now db).escaped =
        some CoreError.storageError ∧
      (record_cmd true fail fetched threshold now db).logs = [] ∧
      (record_cmd true fail fetched threshold now db).db = db) ∧
    (∀ (fail : Bool) (off : Int) (db : DB),
      (history_cmd true fail off db).escaped = some CoreError.storageError ∧
      (history_cmd true fail off db).logs = [] ∧
      (history_cmd true fail off db).db = db) := by
  refine ⟨?_, ?_, ?_, ?_⟩
  · intro fail fetched threshold now db e h
    simp [record_cmd, ensure_db, record, h]
  · intro off db
    exact ⟨rfl, rfl, rfl⟩
  · intro fail fetched threshold now db
    exact ⟨rfl, rfl, rfl⟩
  · intro fail off db
    exact ⟨rfl, rfl, rfl⟩

theorem record_history_swallow_C3_witness :
    ((record_cmd false noFail (.error .valueError) 1 2 emptyDB).escaped = Option.none ∧
     (record_cmd false noFail (.error .valueError) 1 2 emptyDB).logs =
       [LogMsg.error_record .valueError] ∧
     (record_cmd false noFail (.error .valueError) 1 2 emptyDB).db = emptyDB) ∧
    ((record_cmd true noFail (.ok plugOn150) 5 0 emptyDB).escaped =
       some CoreError.storageError ∧
     (record_cmd true noFail (.ok plugOn150) 5 0 emptyDB).logs = [] ∧
     (record_cmd true noFail (.ok plugOn150) 5 0 emptyDB).db = emptyDB) :=
  ⟨record_history_swallow_C3.1 noFail (.error .valueError) 1 2 emptyDB .valueError rfl,
   record_history_swallow_C3.2.2.1 noFail (.ok plugOn150) 5 0 emptyDB⟩

/-- C1 counterexample: for the empty sample sequence (vacuously strictly
increasing) the store stays empty, so the interval count is `0`, not the
claimed `transitions + 1 = 1`. -/
theorem processSamples_empty_cex_C1 :
    processSamples 5 ([] : List (Int × TuyaSmartPlug)) emptyDB = .ok emptyDB ∧
    classifyAll 5 ([] : List (Int × TuyaSmartPlug)) = some [] ∧
    emptyDB.status_log.length ≠ transitions [] + 1 :=
  ⟨rfl, rfl, by decide⟩

/-- A code absent from the payload makes `dps.get` return the default. -/
theorem dpsGet_of_not_has (items : List RawItem) (code : String) (dflt : PyValue)
    (h : dpsHas items code = false) : dpsGet items code dflt = dflt := by
  unfold dpsGet
  have hnone : items.reverse.find? (fun it => it.code == code) = Option.none := by
    rw [List.find?_eq_none]
    intro x hx
    rw [List.mem_reverse] at hx
    simp only [dpsHas, List.any_eq_false] at h
    exact h x hx
  rw [hnone]

/-- C10 counterexample: a payload with truthy `success` whose `cur_power`
value is the string `"x"`; `from_raw` raises `TypeError` from `"x" / 10`,
so construction can fail even when `success` is present and truthy. -/
theorem from_raw_cex_C10 :
    rawBadPower.success.truthy = true ∧
    TuyaSmartPlug.from_raw rawBadPower = .error .typeError :=
  ⟨rfl, rfl⟩


/-- C10 amended: `from_raw` succeeds iff `success` is present and truthy
and each of the three scaled readings (`cur_current`, `cur_voltage`,
`cur_power`) is numeric (a missing code defaults to `0`, which is numeric);
on success every missing code yields its default — `power` false,
`countdown` 0, `energy` 0, the scaled readings 0, `fault` 0,
`relay_status` `"unknown"` — and a present numeric `cur_current` is scaled
by 1/1000 while `cur_voltage` and `cur_power` are scaled by 1/10. -/
theorem from_raw_C10 (raw : RawResponse) :
    (isOkE (TuyaSmartPlug.from_raw raw) = true ↔
      (raw.success.truthy = true ∧
       (dpsGet raw.result ("cur_current") (.i 0)).toNum?.isSome = true ∧
       (dpsGet raw.result ("cur_voltage") (.i 0)).toNum?.isSome = true ∧
       (dpsGet raw.result ("cur_power") (.i 0)).toNum?.isSome = true)) ∧
    (∀ plug, TuyaSmartPlug.from_raw raw = .ok plug →
      (dpsHas raw.result ("switch_1") = false → plug.power = .b false) ∧
      (dpsHas raw.result ("countdown_1") = false → plug.countdown_1_s = .i 0) ∧
      (dpsHas raw.result ("add_ele") = false → plug.energy_wh = .i 0) ∧
      (dpsHas raw.result ("cur_current") = false → plug.current_a = .f 0) ∧
      (dpsHas raw.result ("cur_voltage") = false → plug.voltage_v = .f 0) ∧
      (dpsHas raw.result ("cur_power") = false → plug.power_w = .f 0) ∧
      (dpsHas raw.result ("fault") = false → plug.fault_code = .i 0) ∧
      (dpsHas raw.result ("relay_status") = false → plug.relay_status = .s ("unknown")) ∧
      (∀ q, (dpsGet raw.result ("cur_current") (.i 0)).toNum? = some q →
        plug.current_a = .f (q / 1000)) ∧
      (∀ q, (dpsGet raw.result ("cur_voltage") (.i 0)).toNum? = some q →
        plug.voltage_v = .f (q / 10)) ∧
      (∀ q, (dpsGet raw.result ("cur_power") (.i 0)).toNum? = some q →
        plug.power_w = .f (q / 10))) := by
  by_cases hs : raw.success.truthy
  case neg =>
    rw [Bool.not_eq_true] at hs
    constructor
    · simp [TuyaSmartPlug.from_raw, hs, isOkE]
    · intro plug h
      simp [TuyaSmartPlug.from_raw, hs] at h
  case pos =>
    rcases hc : (dpsGet raw.result ("cur_current") (.i 0)).toNum? with _ | qc
    · constructor
      · simp [TuyaSmartPlug.from_raw, hs, pyDiv, hc, isOkE]
      · intro plug h
        simp [TuyaSmartPlug.from_raw, hs, pyDiv, hc] at h
    · rcases hv : (dpsGet raw.result ("cur_voltage") (.i 0)).toNum? with _ | qv
      · constructor
        · simp [TuyaSmartPlug.from_raw, hs, pyDiv, hc, hv, isOkE]
        · intro plug h
          simp [TuyaSmartPlug.from_raw, hs, pyDiv, hc, hv] at h
      · rcases hp : (dpsGet raw.result ("cur_power") (.i 0)).toNum? with _ | qp
        · constructor
          · simp [TuyaSmartPlug.from_raw, hs, pyDiv, hc, hv, hp, isOkE]
          · intro plug h
            simp [TuyaSmartPlug.from_raw, hs, pyDiv, hc, hv, hp] at h
        · have hok : TuyaSmartPlug.from_raw raw = .ok
              { power := dpsGet raw.result ("switch_1") (.b false)
                countdown_1_s := dpsGet raw.result ("countdown_1") (.i 0)
                energy_wh := dpsGet raw.result ("add_ele") (.i 0)
                current_a := .f (qc / 1000)
                voltage_v := .f (qv / 10)
                power_w := .f (qp / 10)
                fault_code := dpsGet raw.result ("fault") (.i 0)
                relay_status := dpsGet raw.result ("relay_status") (.s ("unknown")) } := by
            simp [TuyaSmartPlug.from_raw, hs, pyDiv, hc, hv, hp]
          constructor
          · simp [hok, isOkE, hs, hc, hv, hp]
          · intro plug h
            rw [hok] at h
            injection h with h'
            subst h'
            refine ⟨?_, ?_, ?_, ?_, ?_, ?_, ?_, ?_, ?_, ?_, ?_⟩
            · intro hm
              exact dpsGet_of_not_has raw.result ("switch_1") (.b false) hm
            · intro hm
              exact dpsGet_of_not_has raw.result ("countdown_1") (.i 0) hm
            · intro hm
              exact dpsGet_of_not_has raw.result ("add_ele") (.i 0) hm
            · intro hm
              have hd := dpsGet_of_not_has raw.result ("cur_current") (.i 0) hm
              rw [hd] at hc
              simp only [PyValue.toNum?, Option.some.injEq] at hc
              show PyValue.f (qc / 1000) = PyValue.f 0
              rw [← hc]
              norm_num
            · intro hm
              have hd := dpsGet_of_not_has raw.result ("cur_voltage") (.i 0) hm
              rw [hd] at hv
              simp only [PyValue.toNum?, Option.some.injEq] at hv
              show PyValue.f (qv / 10) = PyValue.f 0
              rw [← hv]
              norm_num
            · intro hm
              have hd := dpsGet_of_not_has raw.result ("cur_power") (.i 0) hm
              rw [hd] at hp
              simp only [PyValue.toNum?, Option.some.injEq] at hp
              show PyValue.f (qp / 10) = PyValue.f 0
              rw [← hp]
              norm_num
            · intro hm
              exact dpsGet_of_not_has raw.result ("fault") (.i 0) hm
            · intro hm
              exact dpsGet_of_not_has raw.result ("relay_status") (.s ("unknown")) hm
            · intro q hq
              obtain rfl := (Option.some.injEq _ _).mp hq
              rfl
            · intro q hq
              obtain rfl := (Option.some.injEq _ _).mp hq
              rfl
            · intro q hq
              obtain rfl := (Option.some.injEq _ _).mp hq
              rfl

theorem from_raw_C10_witness :
    isOkE (TuyaSmartPlug.from_raw ⟨.b true, []⟩) = true ∧
    ((⟨.b true, []⟩ : RawResponse).success.truthy = true ∧
      (dpsGet ([] : List RawItem) ("cur_current") (.i 0)).toNum?.isSome = true ∧
      (dpsGet ([] : List RawItem) ("cur_voltage") (.i 0)).toNum?.isSome = true ∧
      (dpsGet ([] : List RawItem) ("cur_power") (.i 0)).toNum?.isSome = true) :=
  ⟨(from_raw_C10 ⟨.b true, []⟩).1.mpr ⟨rfl, rfl, rfl, rfl⟩, rfl, rfl, rfl, rfl⟩

/-- C8: `history` renders a stored interval after converting both instants
to the local zone: one line per row; the time range carries the local date
once when start and end share a local calendar date and twice otherwise;
the duration is `end − start` as zero-padded `HH:MM`, hours uncapped
(`ediv 3600`, no modulo 24) and minutes by floor integer division with
seconds discarded (`(e−s) / 60 mod 60`); a 25 h 1 min interval renders as
`"25:01"`. -/
theorem history_render_C8 (off : Int) (r : StatusRow) :
    (history false off ⟨[], [r]⟩).output =
      [historyHeader, historySeparator, render_row off r] ∧
    render_row off r =
      ljust 40 (time_range off r) ++ (" ") ++ ljust 8 (duration_str r) ++ (" ") ++
        ljust 6 r.plug_state ++ (" ") ++ ljust 8 r.device_state ∧
    (time_range off r =
      if localDateTriple off r.start = localDateTriple off r.stop then
        strftime_ymd_hm off r.start ++ (" - ") ++ strftime_hm off r.stop
      else
        strftime_ymd_hm off r.start ++ (" - ") ++ strftime_ymd_hm off r.stop) ∧
    (duration_str r =
      zpad 2 ((r.stop - r.start) / 3600) ++ (":") ++
        zpad 2 ((r.stop - r.start) / 60 % 60)) ∧
    (r.stop - r.start = 90060 → duration_str r = ("25:01")) := by
  have hbase : duration_str r =
      zpad 2 ((r.stop - r.start) / 3600) ++ (":") ++
        zpad 2 ((r.stop - r.start) % 3600 / 60) := rfl
  refine ⟨rfl, rfl, ?_, ?_, ?_⟩
  · simp only [time_range, same_day]
    by_cases hd : localDateTriple off r.start = localDateTriple off r.stop <;>
      simp [hd]
  · rw [hbase]
    have h60 : (r.stop - r.start) % 3600 / 60 =
        (r.stop - r.start) / 60 % 60 := by
      omega
    rw [h60]
  · intro h
    rw [hbase, h]
    rfl

theorem history_render_C8_witness :
    duration_str ⟨0, 90060, ("On"), ("On")⟩ = ("25:01") :=
  (history_render_C8 0 ⟨0, 90060, ("On"), ("On")⟩).2.2.2.2 (by decide)

theorem notNone_of_isBoolV (v : PyValue) (h : v.isBoolV = true) : v.isNone = false := by
  cases v <;> simp_all [PyValue.isBoolV, PyValue.isNone]

theorem notNone_of_isIntV (v : PyValue) (h : v.isIntV = true) : v.isNone = false := by
  cases v <;> simp_all [PyValue.isIntV, PyValue.isNone]

theorem notNone_of_isFloatV (v : PyValue) (h : v.isFloatV = true) : v.isNone = false := by
  cases v <;> simp_all [PyValue.isFloatV, PyValue.isNone]

theorem notNone_of_isStrV (v : PyValue) (h : v.isStrV = true) : v.isNone = false := by
  cases v <;> simp_all [PyValue.isStrV, PyValue.isNone]

theorem exists_of_isBoolV (v : PyValue) (h : v.isBoolV = true) : ∃ b, v = .b b := by
  cases v <;> simp_all [PyValue.isBoolV]

/-- A snapshot matching the dataclass annotations has a boolean `power`
and no `None` field, so the event insert's parameters are well-formed. -/
theorem wellTyped_shape (p : TuyaSmartPlug) (h : wellTypedPlug p = true) :
    (∃ b, p.power = .b b) ∧ eventValuesNotNull p = true := by
  simp only [wellTypedPlug, Bool.and_eq_true] at h
  obtain ⟨⟨⟨⟨⟨⟨⟨h1, h2⟩, h3⟩, h4⟩, h5⟩, h6⟩, h7⟩, h8⟩ := h
  refine ⟨exists_of_isBoolV _ h1, ?_⟩
  simp [eventValuesNotNull, notNone_of_isIntV _ h2, notNone_of_isIntV _ h3,
    notNone_of_isFloatV _ h4, notNone_of_isFloatV _ h5, notNone_of_isFloatV _ h6,
    notNone_of_isIntV _ h7, notNone_of_isStrV _ h8]

/-- C2: when the most recently created interval row carries the same state
pair as the new sample, `record` extends that row's `end` to the new
timestamp in place — same `start`, same pair, no new `status_log` row (the
row count is unchanged and the only interval write is an UPDATE). -/
theorem record_merge_C2 (plug : TuyaSmartPlug) (threshold : ℚ) (T2 : Int)
    (db : DB) (row : StatusRow)
    (hw : wellTypedPlug plug = true)
    (hlast : db.status_log.getLast? = some row)
    (heval : evaluate_plug_state plug threshold = .ok (row.plug_state, row.device_state))
    (_ht : row.stop < T2) :
    ∃ ev, record_body noFail (.ok plug) threshold T2 db =
      .ok ({ event_log := db.event_log ++ [ev],
             status_log := db.status_log.dropLast ++ [{ row with stop := T2 }] },
           [WriteOp.insertEvent, WriteOp.updateStatus],
           [LogMsg.info_updated row.plug_state row.device_state]) ∧
      (db.status_log.dropLast ++ [{ row with stop := T2 }]).length =
        db.status_log.length := by
  obtain ⟨⟨b, hb⟩, hnn⟩ := wellTyped_shape plug hw
  refine ⟨mkEventRow plug row.plug_state row.device_state T2 (if b then 1 else 0),
    ?_, ?_⟩
  · simp only [record_body]
    rw [heval]
    simp only [record_tx, noFail]
    rw [hb]
    simp [pyInt, hnn, hlast]
  · have hne : db.status_log ≠ [] := by
      intro hnil
      rw [hnil] at hlast
      simp at hlast
    have hpos : 0 < db.status_log.length := List.length_pos.mpr hne
    simp only [List.length_append, List.length_dropLast, List.length_singleton]
    omega

theorem record_merge_C2_witness :
    ∃ ev, record_body noFail (.ok plugOn150) 5 120 dbOn60 =
      .ok ({ event_log := dbOn60.event_log ++ [ev],
             status_log := dbOn60.status_log.dropLast ++ [{ rowOn60 with stop := 120 }] },
           [WriteOp.insertEvent, WriteOp.updateStatus],
           [LogMsg.info_updated rowOn60.plug_state rowOn60.device_state]) ∧
      (dbOn60.status_log.dropLast ++ [{ rowOn60 with stop := 120 }]).length =
        dbOn60.status_log.length :=
  record_merge_C2 plugOn150 5 120 dbOn60 rowOn60 rfl rfl rfl (by decide)

/-- C7: when the new sample's state pair differs from the one on the most
recently created interval row, `record` leaves every existing row (that
row included) unchanged and appends exactly one new row
`(start = T2, end = T2, pair = Q)`. -/
theorem record_transition_C7 (plug : TuyaSmartPlug) (threshold : ℚ) (T2 : Int)
    (db : DB) (row : StatusRow) (Q : String × String)
    (hw : wellTypedPlug plug = true)
    (hlast : db.status_log.getLast? = some row)
    (heval : evaluate_plug_state plug threshold = .ok Q)
    (hne : Q ≠ (row.plug_state, row.device_state)) :
    ∃ ev, record_body noFail (.ok plug) threshold T2 db =
      .ok ({ event_log := db.event_log ++ [ev],
             status_log := db.status_log ++ [⟨T2, T2, Q.1, Q.2⟩] },
           [WriteOp.insertEvent, WriteOp.insertStatus],
           [LogMsg.info_logged Q.1 Q.2]) ∧
      (db.status_log ++ [(⟨T2, T2, Q.1, Q.2⟩ : StatusRow)]).length = db.status_log.length + 1 := by
  obtain ⟨⟨b, hb⟩, hnn⟩ := wellTyped_shape plug hw
  have hcond : ¬(Q.1 = row.plug_state ∧ Q.2 = row.device_state) := by
    intro hand
    exact hne (Prod.ext hand.1 hand.2)
  refine ⟨mkEventRow plug Q.1 Q.2 T2 (if b then 1 else 0), ?_, ?_⟩
  · simp only [record_body]
    rw [heval]
    simp only [record_tx, noFail, status_insert]
    rw [hb]
    simp [pyInt, hnn, hlast, hcond]
  · simp [List.length_append]

theorem record_transition_C7_witness :
    ∃ ev, record_body noFail (.ok plugOff0) 5 120 dbOn60 =
      .ok ({ event_log := dbOn60.event_log ++ [ev],
             status_log := dbOn60.status_log ++ [⟨120, 120, ("Off"), ("Off")⟩] },
           [WriteOp.insertEvent, WriteOp.insertStatus],
           [LogMsg.info_logged ("Off") ("Off")]) ∧
      (dbOn60.status_log ++ [(⟨120, 120, ("Off"), ("Off")⟩ : StatusRow)]).length =
        dbOn60.status_log.length + 1 :=
  record_transition_C7 plugOff0 5 120 dbOn60 rowOn60 (("Off"), ("Off"))
    rfl rfl rfl (by decide)

/-- Shape of a successful transaction: the event row is appended, and the
interval table receives either an in-place update of its last row (trace
`UPDATE`) or one appended row (trace `INSERT`), never both. -/
theorem record_tx_cases (fail : FailureSpec) (plug : TuyaSmartPlug)
    (ps ds : String) (now : Int) (db db1 : DB) (ops : List WriteOp)
    (logs : List LogMsg)
    (h : record_tx fail plug ps ds now db = .ok (db1, ops, logs)) :
    (∃ ev, db1.event_log = db.event_log ++ [ev]) ∧
    ((∃ row, db.status_log.getLast? = some row ∧
        db1.status_log = db.status_log.dropLast ++ [{ row with stop := now }] ∧
        ops = [WriteOp.insertEvent, WriteOp.updateStatus]) ∨
     (db1.status_log = db.status_log ++ [(⟨now, now, ps, ds⟩ : StatusRow)] ∧
        ops = [WriteOp.insertEvent, WriteOp.insertStatus])) := by
  simp only [record_tx] at h
  split at h
  · exact absurd h (by simp)
  · split at h
    · exact absurd h (by simp)
    · split at h
      · exact absurd h (by simp)
      · split at h
        · exact absurd h (by simp)
        · split at h
          · rename_i row hrow
            split at h
            · split at h
              · exact absurd h (by simp)
              · obtain ⟨h1, h2, h3⟩ := by simpa using h
                subst h1 h2
                exact ⟨⟨_, rfl⟩, Or.inl ⟨row, by simpa using hrow, rfl, rfl⟩⟩
            · simp only [status_insert] at h
              split at h
              · exact absurd h (by simp)
              · obtain ⟨h1, h2, h3⟩ := by simpa using h
                subst h1 h2
                exact ⟨⟨_, rfl⟩, Or.inr ⟨rfl, rfl⟩⟩
          · rename_i hrow
            simp only [status_insert] at h
            split at h
            · exact absurd h (by simp)
            · obtain ⟨h1, h2, h3⟩ := by simpa using h
              subst h1 h2
              exact ⟨⟨_, rfl⟩, Or.inr ⟨rfl, rfl⟩⟩

/-- C6: every successful `record` run performs exactly one `event_log`
insert and exactly one `status_log` write, the latter being either an
update of the latest row or an insert of a new row, never both. -/
theorem record_write_ops_C6 (fail : FailureSpec)
    (fetched : Except CoreError TuyaSmartPlug) (threshold : ℚ) (now : Int)
    (db db1 : DB) (ops : List WriteOp) (logs : List LogMsg)
    (h : record_body fail fetched threshold now db = .ok (db1, ops, logs)) :
    ops.count WriteOp.insertEvent = 1 ∧
    ops.count WriteOp.updateStatus + ops.count WriteOp.insertStatus = 1 := by
  simp only [record_body] at h
  split at h
  · exact absurd h (by simp)
  · split at h
    · exact absurd h (by simp)
    · split at h
      · exact absurd h (by simp)
      · obtain ⟨-, hshape⟩ := record_tx_cases _ _ _ _ _ _ _ _ _ h
        rcases hshape with ⟨row, -, -, rfl⟩ | ⟨-, rfl⟩
        · exact ⟨by decide, by decide⟩
        · exact ⟨by decide, by decide⟩

theorem record_write_ops_C6_witness :
    ([WriteOp.insertEvent, WriteOp.updateStatus] : List WriteOp).count
        WriteOp.insertEvent = 1 ∧
    ([WriteOp.insertEvent, WriteOp.updateStatus] : List WriteOp).count
        WriteOp.updateStatus +
      ([WriteOp.insertEvent, WriteOp.updateStatus] : List WriteOp).count
        WriteOp.insertStatus = 1 :=
  record_write_ops_C6 noFail (.ok plugOn150) 5 120 dbOn60
    { event_log := dbOn60.event_log ++
        [mkEventRow plugOn150 rowOn60.plug_state rowOn60.device_state 120 1],
      status_log := dbOn60.status_log.dropLast ++ [{ rowOn60 with stop := 120 }] }
    [WriteOp.insertEvent, WriteOp.updateStatus]
    [LogMsg.info_updated rowOn60.plug_state rowOn60.device_state] rfl

/-- C5: unavailable persistence (a failing connect) or a failing event
insert makes the operation fail; any failure leaves the committed database
exactly as it was (the `with`-block transaction rolls back, so there is no
partial write); and a success applies the event insert and exactly one
interval write together. -/
theorem record_atomic_C5 (fail : FailureSpec)
    (fetched : Except CoreError TuyaSmartPlug) (threshold : ℚ) (now : Int)
    (db : DB) :
    ((fail.connect = true ∨ fail.insertEvent = true) →
      isOkE (record_body fail fetched threshold now db) = false) ∧
    (∀ e, record_body fail fetched threshold now db = .error e →
      (record fail fetched threshold now db).db = db) ∧
    (∀ db1 ops logs, record_body fail fetched threshold now db = .ok (db1, ops, logs) →
      (∃ ev, db1.event_log = db.event_log ++ [ev]) ∧
      ((∃ row, db.status_log.getLast? = some row ∧
          db1.status_log = db.status_log.dropLast ++ [{ row with stop := now }]) ∨
       (∃ s1 s2, db1.status_log = db.status_log ++ [(⟨now, now, s1, s2⟩ : StatusRow)]))) := by
  refine ⟨?_, ?_, ?_⟩
  · intro hfail
    simp only [record_body]
    split
    · rfl
    · split
      · rfl
      · rcases hfail with hc | hi
        · simp [hc, isOkE]
        · by_cases hc : fail.connect
          · simp [hc, isOkE]
          · simp only [Bool.not_eq_true] at hc
            simp only [hc, Bool.false_eq_true, if_false, record_tx]
            split
            · rfl
            · simp [hi, isOkE]
  · intro e he
    simp [record, he]
  · intro db1 ops logs h
    simp only [record_body] at h
    split at h
    · exact absurd h (by simp)
    · split at h
      · exact absurd h (by simp)
      · split at h
        · exact absurd h (by simp)
        · obtain ⟨hev, hshape⟩ := record_tx_cases _ _ _ _ _ _ _ _ _ h
          refine ⟨hev, ?_⟩
          rcases hshape with ⟨row, hrow, hst, -⟩ | ⟨hst, -⟩
          · exact Or.inl ⟨row, hrow, hst⟩
          · exact Or.inr ⟨_, _, hst⟩

theorem record_atomic_C5_witness :
    isOkE (record_body ⟨true, false, false, false, false⟩ (.ok plugOn150) 5 120 dbOn60)
        = false ∧
    (record ⟨true, false, false, false, false⟩ (.ok plugOn150) 5 120 dbOn60).db =
      dbOn60 :=
  ⟨(record_atomic_C5 ⟨true, false, false, false, false⟩ (.ok plugOn150) 5 120
      dbOn60).1 (Or.inl rfl),
   (record_atomic_C5 ⟨true, false, false, false, false⟩ (.ok plugOn150) 5 120
      dbOn60).2.1 .storageError rfl⟩

/-- With no injected failure, a well-typed snapshot records successfully
and the effect on `status_log` is exactly `step`. -/
theorem record_body_step (plug : TuyaSmartPlug) (threshold : ℚ) (now : Int)
    (db : DB) (pr : String × String)
    (hw : wellTypedPlug plug = true)
    (heval : evaluate_plug_state plug threshold = .ok pr) :
    ∃ db1 ops logs, record_body noFail (.ok plug) threshold now db = .ok (db1, ops, logs) ∧
      db1.status_log = step pr now db.status_log := by
  obtain ⟨⟨b, hb⟩, hnn⟩ := wellTyped_shape plug hw
  obtain ⟨p1, p2⟩ := pr
  rcases hlast : db.status_log.getLast? with _ | row
  · refine ⟨{ event_log := db.event_log ++ [mkEventRow plug p1 p2 now (if b then 1 else 0)],
              status_log := db.status_log ++ [⟨now, now, p1, p2⟩] },
            [WriteOp.insertEvent, WriteOp.insertStatus],
            [LogMsg.info_logged p1 p2], ?_, ?_⟩
    · simp only [record_body]
      rw [heval]
      simp only [record_tx, noFail, status_insert]
      rw [hb]
      simp [pyInt, hnn, hlast]
    · simp [step, hlast]
  · by_cases hpq : p1 = row.plug_state ∧ p2 = row.device_state
    · obtain ⟨hq1, hq2⟩ := hpq
      subst hq1 hq2
      refine ⟨{ event_log := db.event_log ++
                  [mkEventRow plug row.plug_state row.device_state now (if b then 1 else 0)],
                status_log := db.status_log.dropLast ++ [{ row with stop := now }] },
              [WriteOp.insertEvent, WriteOp.updateStatus],
              [LogMsg.info_updated row.plug_state row.device_state], ?_, ?_⟩
      · simp only [record_body]
        rw [heval]
        simp only [record_tx, noFail]
        rw [hb]
        simp [pyInt, hnn, hlast]
      · simp [step, hlast]
    · refine ⟨{ event_log := db.event_log ++ [mkEventRow plug p1 p2 now (if b then 1 else 0)],
                status_log := db.status_log ++ [⟨now, now, p1, p2⟩] },
              [WriteOp.insertEvent, WriteOp.insertStatus],
              [LogMsg.info_logged p1 p2], ?_, ?_⟩
      · simp only [record_body]
        rw [heval]
        simp only [record_tx, noFail, status_insert]
        rw [hb]
        simp [pyInt, hnn, hlast, hpq]
      · simp [step, hlast, hpq]

/-- One `step` preserves the interval-set invariant when the new sample is
strictly later than the current last row's `end`: the new last row ends at
`now` and carries the new pair, and the row count grows by one exactly on
a state transition. -/
theorem step_inv (pr : String × String) (now : Int) (log : List StatusRow)
    (last : StatusRow) (hInv : StoreInv log last) (hlt : last.stop < now) :
    ∃ last1, StoreInv (step pr now log) last1 ∧ last1.stop = now ∧
      pairOf last1 = pr ∧
      (step pr now log).length =
        log.length + (if pairOf last = pr then 0 else 1) := by
  obtain ⟨hlast, hpw, hbnd⟩ := hInv
  have hdecomp : log.dropLast ++ [last] = log :=
    List.dropLast_append_getLast? last hlast
  obtain ⟨p1, p2⟩ := pr
  simp only [step, hlast]
  by_cases hpq : p1 = last.plug_state ∧ p2 = last.device_state
  · rw [if_pos hpq]
    obtain ⟨hq1, hq2⟩ := hpq
    have hcond : pairOf last = (p1, p2) := by
      simp [pairOf, hq1, hq2]
    refine ⟨{ last with stop := now }, ⟨List.getLast?_concat _, ?_, ?_⟩, rfl, ?_, ?_⟩
    · have hpw' : (log.dropLast ++ [last]).Pairwise rowOrdered := by
        rw [hdecomp]
        exact hpw
      rw [List.pairwise_append] at hpw' ⊢
      obtain ⟨hA, -, hAB⟩ := hpw'
      refine ⟨hA, by simp, ?_⟩
      intro a ha c hc
      rw [List.mem_singleton] at hc
      subst hc
      exact (hAB a ha last (by simp) : rowOrdered a last)
    · intro r hr
      rw [List.mem_append] at hr
      rcases hr with hr | hr
      · have hrl : r ∈ log := by
          rw [← hdecomp]
          exact List.mem_append_left _ hr
        obtain ⟨h1, h2⟩ := hbnd r hrl
        refine ⟨h1, ?_⟩
        show r.stop ≤ now
        omega
      · rw [List.mem_singleton] at hr
        subst hr
        obtain ⟨h1, h2⟩ := hbnd last (by rw [← hdecomp]; exact List.mem_append_right _ (by simp))
        refine ⟨?_, le_refl _⟩
        show last.start ≤ now
        omega
    · simp [pairOf, hq1, hq2]
    · rw [hcond, if_pos rfl]
      have hlen : log.dropLast.length + 1 = log.length := by
        conv_rhs => rw [← hdecomp]
        simp
      simp only [List.length_append, List.length_singleton]
      omega
  · rw [if_neg hpq]
    have hcond : ¬(pairOf last = (p1, p2)) := by
      intro hc
      apply hpq
      rw [pairOf, Prod.mk.injEq] at hc
      exact ⟨hc.1.symm, hc.2.symm⟩
    refine ⟨⟨now, now, p1, p2⟩, ⟨List.getLast?_concat _, ?_, ?_⟩, rfl, rfl, ?_⟩
    · rw [List.pairwise_append]
      refine ⟨hpw, by simp, ?_⟩
      intro a ha c hc
      rw [List.mem_singleton] at hc
      subst hc
      obtain ⟨h1, h2⟩ := hbnd a ha
      refine ⟨?_, ?_⟩
      · show a.stop < now
        omega
      · show a.start < now
        omega
    · intro r hr
      rw [List.mem_append] at hr
      rcases hr with hr | hr
      · obtain ⟨h1, h2⟩ := hbnd r hr
        refine ⟨h1, ?_⟩
        show r.stop ≤ now
        omega
      · rw [List.mem_singleton] at hr
        subst hr
        exact ⟨le_refl _, le_refl _⟩
    · rw [if_neg hcond]
      simp [List.length_append]

/-- Folding `record` over later samples preserves the invariant and adds
one row per state transition. -/
theorem processSamples_inv (threshold : ℚ) (samples : List (Int × TuyaSmartPlug)) :
    ∀ (prs : List (String × String)) (db : DB) (last : StatusRow),
    (∀ s ∈ samples, wellTypedPlug s.2 = true) →
    classifyAll threshold samples = some prs →
    StoreInv db.status_log last →
    List.Chain' (· < ·) (last.stop :: samples.map Prod.fst) →
    ∃ db1 last1, processSamples threshold samples db = .ok db1 ∧
      StoreInv db1.status_log last1 ∧
      db1.status_log.length = db.status_log.length + transitionsFrom (pairOf last) prs := by
  induction samples with
  | nil =>
    intro prs db last hwt hcl hInv hchain
    simp only [classifyAll, List.mapM_nil, pure, Option.some.injEq] at hcl
    subst hcl
    exact ⟨db, last, rfl, hInv, by simp [transitionsFrom]⟩
  | cons s rest ih =>
    intro prs db last hwt hcl hInv hchain
    obtain ⟨t, p⟩ := s
    simp only [classifyAll, List.mapM_cons] at hcl
    rcases heval : (evaluate_plug_state p threshold).toOption with _ | pr
    · rw [heval] at hcl
      simp at hcl
    · rw [heval] at hcl
      rcases hrest : rest.mapM (fun s => (evaluate_plug_state s.2 threshold).toOption)
        with _ | prsR
      · rw [hrest] at hcl
        simp at hcl
      · rw [hrest] at hcl
        simp only [Option.bind_some, Option.bind_eq_bind, Option.some_bind, pure,
          Option.some.injEq] at hcl
        subst hcl
        have hevalE : evaluate_plug_state p threshold = .ok pr := by
          cases he : evaluate_plug_state p threshold with
          | error e =>
            rw [he] at heval
            simp [Except.toOption] at heval
          | ok v =>
            rw [he] at heval
            simp only [Except.toOption, Option.some.injEq] at heval
            rw [heval]
        rw [List.map_cons] at hchain
        have hlt : last.stop < t := (List.chain'_cons.mp hchain).1
        have hchainT := (List.chain'_cons.mp hchain).2
        obtain ⟨db1, ops, logs, hb, hst⟩ :=
          record_body_step p threshold t db pr (hwt (t, p) (by simp)) hevalE
        obtain ⟨last1, hInv1, hstop1, hpair1, hlen1⟩ :=
          step_inv pr t db.status_log last hInv hlt
        rw [← hst] at hInv1 hlen1
        have hwt' : ∀ s ∈ rest, wellTypedPlug s.2 = true := by
          intro s hs
          exact hwt s (by simp [hs])
        have hchain1 : List.Chain' (· < ·) (last1.stop :: rest.map Prod.fst) := by
          rw [hstop1]
          exact hchainT
        obtain ⟨db2, last2, hp2, hInv2, hlen2⟩ :=
          ih prsR db1 last1 hwt' hrest hInv1 hchain1
        refine ⟨db2, last2, ?_, hInv2, ?_⟩
        · simp only [processSamples]
          rw [hb]
          exact hp2
        · rw [hlen2, hlen1, hpair1]
          simp only [transitionsFrom]
          omega

/-- C1 amended: for every NON-EMPTY sample sequence with strictly
increasing timestamps, recorded from an empty store, the resulting
interval rows are pairwise non-overlapping and ordered by start, each row
is a well-formed interval, and the row count equals the number of state
pair transitions plus one. (The empty sequence yields zero rows, not
`transitions + 1 = 1`.) -/
theorem processSamples_intervals_C1 (threshold : ℚ)
    (samples : List (Int × TuyaSmartPlug)) (prs : List (String × String))
    (hne : samples ≠ [])
    (hwt : ∀ s ∈ samples, wellTypedPlug s.2 = true)
    (hcl : classifyAll threshold samples = some prs)
    (hmono : List.Chain' (· < ·) (samples.map Prod.fst)) :
    ∃ db1, processSamples threshold samples emptyDB = .ok db1 ∧
      db1.status_log.Pairwise rowOrdered ∧
      (∀ r ∈ db1.status_log, r.start ≤ r.stop) ∧
      db1.status_log.length = transitions prs + 1 := by
  obtain ⟨⟨t, p⟩, rest, rfl⟩ : ∃ s rest, samples = s :: rest := by
    cases samples with
    | nil => exact absurd rfl hne
    | cons s rest => exact ⟨s, rest, rfl⟩
  simp only [classifyAll, List.mapM_cons] at hcl
  rcases heval : (evaluate_plug_state p threshold).toOption with _ | pr
  · rw [heval] at hcl
    simp at hcl
  · rw [heval] at hcl
    rcases hrest : rest.mapM (fun s => (evaluate_plug_state s.2 threshold).toOption)
      with _ | prsR
    · rw [hrest] at hcl
      simp at hcl
    · rw [hrest] at hcl
      simp only [Option.bind_some, Option.bind_eq_bind, Option.some_bind, pure,
        Option.some.injEq] at hcl
      subst hcl
      have hevalE : evaluate_plug_state p threshold = .ok pr := by
        cases he : evaluate_plug_state p threshold with
        | error e =>
          rw [he] at heval
          simp [Except.toOption] at heval
        | ok v =>
          rw [he] at heval
          simp only [Except.toOption, Option.some.injEq] at heval
          rw [heval]
      obtain ⟨db1, ops, logs, hb, hst⟩ :=
        record_body_step p threshold t emptyDB pr (hwt (t, p) (by simp)) hevalE
      have hst1 : db1.status_log = [⟨t, t, pr.1, pr.2⟩] := by
        rw [hst]
        simp [step, emptyDB]
      have hInv1 : StoreInv db1.status_log ⟨t, t, pr.1, pr.2⟩ := by
        rw [hst1]
        refine ⟨rfl, by simp, ?_⟩
        intro r hr
        rw [List.mem_singleton] at hr
        subst hr
        exact ⟨le_refl _, le_refl _⟩
      have hwt' : ∀ s ∈ rest, wellTypedPlug s.2 = true := by
        intro s hs
        exact hwt s (by simp [hs])
      rw [List.map_cons] at hmono
      have hchain1 : List.Chain' (· < ·)
          ((⟨t, t, pr.1, pr.2⟩ : StatusRow).stop :: rest.map Prod.fst) := hmono
      obtain ⟨db2, last2, hp2, hInv2, hlen2⟩ :=
        processSamples_inv threshold rest prsR db1 ⟨t, t, pr.1, pr.2⟩
          hwt' hrest hInv1 hchain1
      refine ⟨db2, ?_, hInv2.2.1, ?_, ?_⟩
      · simp only [processSamples]
        rw [hb]
        exact hp2
      · intro r hr
        exact (hInv2.2.2 r hr).1
      · rw [hlen2, hst1]
        have hpeta : pairOf ⟨t, t, pr.1, pr.2⟩ = pr := rfl
        rw [hpeta]
        simp only [transitions, List.length_singleton]
        omega

theorem processSamples_intervals_C1_witness :
    ∃ db1, processSamples 5 samplesScenario emptyDB = .ok db1 ∧
      db1.status_log.Pairwise rowOrdered ∧
      (∀ r ∈ db1.status_log, r.start ≤ r.stop) ∧
      db1.status_log.length = transitions prsScenario + 1 :=
  processSamples_intervals_C1 5 samplesScenario prsScenario (by decide)
    (by decide) rfl
    (by norm_num [samplesScenario, List.chain'_cons, List.chain'_singleton])
